import Mathlib

/-!
Verification of the `BypassNode` component of `@ircam/sc-audio`
(`src/BypassNode.js`), a composite Web-Audio node that wraps a caller-supplied
sub-graph so it can be bypassed with a smoothed cross-fade.

The JavaScript class is shallowly embedded: JavaScript values relevant to the
API surface become the inductive `JSVal`; the host audio graph (created gain
nodes, connections, and scheduled `setTargetAtTime` automation calls) becomes
an explicit `World` record threaded through the constructor and the `active`
setter; the instance's private fields become the `BypassState` record.
Gain values and times are rationals (the source only ever uses the exact
constants 0, 1, 0.01 and the host clock's `currentTime`).
-/

/-- JavaScript values as far as the `BypassNode` API surface distinguishes
them: `undefined`, `null`, booleans, numbers (with `NaN` separate), strings,
plain objects (whose only recognized key is `active`: `emptyObj` is a record
without that key, `objActive a` a record with `active: a`), and
`BaseAudioContext` instances identified by an id. -/
inductive JSVal where
  | undef : JSVal
  | null : JSVal
  | bool : Bool → JSVal
  | num : Int → JSVal
  | nan : JSVal
  | str : String → JSVal
  | emptyObj : JSVal
  | objActive : JSVal → JSVal
  | context : Nat → JSVal
deriving DecidableEq, Repr

/-- JavaScript truthiness coercion (`!!v` and the condition of `v ? a : b`). -/
def truthy : JSVal → Bool
  | .undef => false
  | .null => false
  | .bool b => b
  | .num x => x ≠ 0
  | .nan => false
  | .str s => s ≠ ""
  | .emptyObj => true
  | .objActive _ => true
  | .context _ => true

/-- `isPlainObject` from `@ircam/sc-utils`: true exactly for plain key-value
records (not `null`, not primitives, not host objects). -/
def isPlainObject : JSVal → Bool
  | .emptyObj => true
  | .objActive _ => true
  | _ => false

/-- `context instanceof BaseAudioContext`. -/
def isContext : JSVal → Bool
  | .context _ => true
  | _ => false

/-- The context id of a context value (0 for non-contexts, which never reach
node creation past validation). -/
def contextIdOf : JSVal → Nat
  | .context i => i
  | _ => 0

/-- One gain node created in the host graph: its id, the id of the owning
context, and the initial value of its `gain` AudioParam. -/
structure GNode where
  id : Nat
  ctxId : Nat
  gain : ℚ
deriving DecidableEq, Repr

/-- One `gain.setTargetAtTime(target, startTime, timeConstant)` automation
call recorded against the node `node`. -/
structure AutoCall where
  node : Nat
  target : ℚ
  startTime : ℚ
  timeConstant : ℚ
deriving DecidableEq, Repr

instance : Inhabited AutoCall := ⟨⟨0, 0, 0, 0⟩⟩

/-- The observable host audio-graph state: created gain nodes, directed
`connect` edges between node ids, the scheduled automation calls in issue
order, the next fresh node id, and the context clock `currentTime`. -/
structure World where
  nodes : List GNode
  edges : List (Nat × Nat)
  autos : List AutoCall
  nextId : Nat
  currentTime : ℚ
deriving DecidableEq, Repr

/-- An empty host graph whose clock reads `t`. -/
def World.init (t : ℚ) : World :=
  ⟨[], [], [], 0, t⟩

/-- `new GainNode(context, { gain })`: allocate a fresh gain node. -/
def World.newGain (w : World) (ctxId : Nat) (g : ℚ) : World × Nat :=
  ({ w with nodes := w.nodes ++ [⟨w.nextId, ctxId, g⟩], nextId := w.nextId + 1 },
   w.nextId)

/-- `a.connect(b)` between two internal nodes: record the edge. -/
def World.addEdge (w : World) (a b : Nat) : World :=
  { w with edges := w.edges ++ [(a, b)] }

/-- The settled (post-transition) value of a node's `gain` parameter: the
target of the last automation event scheduled on it, or its initial gain if
none was ever scheduled. -/
def settledGain (w : World) (nid : Nat) : ℚ :=
  match (w.autos.filter (fun e => e.node == nid)).getLast? with
  | some e => e.target
  | none =>
    match w.nodes.find? (fun n => n.id == nid) with
    | some n => n.gain
    | none => 0

/-- The private fields of a `BypassNode` instance: `#context`, `#active`
(stored raw, exactly as the source assigns it), and the node ids of the base
`GainNode` (the component's own input stage created by `super(context)`),
`#bypass`, `#subGraphIn` and `#output`. -/
structure BypassState where
  ctxVal : JSVal
  active : JSVal
  selfId : Nat
  bypassId : Nat
  subId : Nat
  outId : Nat
deriving DecidableEq, Repr

/-- The synchronous errors the constructor can raise: the explicit
`throw new Error(...)` for argument 1 and argument 2, and the TypeError the
JavaScript runtime raises when destructuring the parameter
`{ active = ... } = {}` against `null`. The spec's taxonomy names all of
these `InvalidArgument` (the source throws untyped `Error`s). -/
inductive ConstructError where
  | invalidContext : ConstructError
  | invalidOptions : ConstructError
  | destructureNull : ConstructError
deriving DecidableEq, Repr

/-- JavaScript parameter destructuring `{ active = default } = {}` applied to
the raw second argument: `undefined` takes the whole default record, `null`
throws, primitives box to objects without an `active` property (default
applies), and a plain object supplies its `active` field unless that field is
itself `undefined`. The default is `BypassNode.parameters.active.default`,
i.e. `false`. -/
def destructureActive : JSVal → Except ConstructError JSVal
  | .null => .error .destructureNull
  | .objActive .undef => .ok (.bool false)
  | .objActive a => .ok a
  | _ => .ok (.bool false)

/-- The `BypassNode` constructor, in source order: destructure the options
parameter, run `super(context)` (creating the component's own input-stage
gain node), validate argument 1 (`instanceof BaseAudioContext`), validate
argument 2 (`arguments[1] !== undefined && !isPlainObject(arguments[1])`),
store `#active = !!active`, then create and wire `#bypass` (gain
`active ? 1 : 0`, fed from the input stage), `#subGraphIn` (gain
`active ? 0 : 1`, fed from the input stage) and `#output` (default gain 1,
fed from `#bypass`). -/
def mkBypassNode (w0 : World) (context arg2 : JSVal) :
    World × Except ConstructError BypassState :=
  match destructureActive arg2 with
  | .error e => (w0, .error e)
  | .ok activeOpt =>
    let ctxId := contextIdOf context
    let p1 := w0.newGain ctxId 1
    let w1 := p1.1
    let selfId := p1.2
    if isContext context = false then
      (w1, .error .invalidContext)
    else if arg2 ≠ .undef ∧ isPlainObject arg2 = false then
      (w1, .error .invalidOptions)
    else
      let a := truthy activeOpt
      let p2 := w1.newGain ctxId (if a then 1 else 0)
      let w3 := p2.1.addEdge selfId p2.2
      let p3 := w3.newGain ctxId (if a then 0 else 1)
      let w5 := p3.1.addEdge selfId p3.2
      let p4 := w5.newGain ctxId 1
      let w7 := p4.1.addEdge p2.2 p4.2
      (w7, .ok ⟨context, .bool a, selfId, p2.2, p3.2, p4.2⟩)

/-- The `subGraphInput` accessor: returns `#subGraphIn`. -/
def BypassState.subGraphInput (st : BypassState) : Nat :=
  st.subId

/-- The `subGraphOutput` accessor: returns `#output`. -/
def BypassState.subGraphOutput (st : BypassState) : Nat :=
  st.outId

/-- The `active` setter: store the raw value into `#active`, read
`currentTime` once, then schedule `#bypass.gain.setTargetAtTime(active ? 1 :
0, now, 0.01)` followed by `#subGraphIn.gain.setTargetAtTime(active ? 0 : 1,
now, 0.01)`. -/
def setActive (st : BypassState) (w : World) (v : JSVal) : BypassState × World :=
  let st2 := { st with active := v }
  let now := w.currentTime
  let w1 := { w with autos := w.autos ++
    [AutoCall.mk st.bypassId (if truthy v then 1 else 0) now (1 / 100)] }
  let w2 := { w1 with autos := w1.autos ++
    [AutoCall.mk st.subId (if truthy v then 0 else 1) now (1 / 100)] }
  (st2, w2)

/-- `connect(...args)`: `return this.#output.connect(...args)`, where the
host connect primitive `prim` is an arbitrary external collaborator. -/
inductive HostError where
  | err : String → HostError
deriving DecidableEq, Repr

/-- `connect(...args)` delegates to `#output` and returns its result. -/
def BypassState.connectVia (st : BypassState)
    (prim : Nat → List JSVal → Except HostError JSVal)
    (args : List JSVal) : Except HostError JSVal :=
  prim st.outId args

/-- `disconnect(...args)` delegates to `#output`; JavaScript discards the
primitive's return value (the method returns `undefined`) but lets any
exception propagate. -/
def BypassState.disconnectVia (st : BypassState)
    (prim : Nat → List JSVal → Except HostError JSVal)
    (args : List JSVal) : Except HostError JSVal :=
  (prim st.outId args).map (fun _ => JSVal.undef)

/-- The host graph obtained by constructing a `BypassNode` with default
options in an empty graph at time 0: the input stage (id 0, gain 1), the
bypass gain (id 1, gain 0), the sub-graph-input gain (id 2, gain 1), the
output gain (id 3, gain 1), and the three internal connections. -/
def freshW : World :=
  ⟨[⟨0, 0, 1⟩, ⟨1, 0, 0⟩, ⟨2, 0, 1⟩, ⟨3, 0, 1⟩], [(0, 1), (0, 2), (1, 3)], [], 4, 0⟩

/-- The instance state produced by that same default construction. -/
def freshSt : BypassState :=
  ⟨.context 0, .bool false, 0, 1, 2, 3⟩

/-- The automation calls on record after constructing a `BypassNode` with
`active: false` (the default) and then assigning `active = true` when the
context clock reads `t0` — the scenario of the `should properly toggle`
test. -/
def toggleAutos (t0 : ℚ) : List AutoCall :=
  match mkBypassNode (World.init 0) (.context 0) .undef with
  | (w, .ok st) => (setActive st { w with currentTime := t0 } (.bool true)).2.autos
  | (_, .error _) => []

/-- Modelled from the spec: the external host's `setTargetAtTime` automation
curve (the "time-constant approach / exponential ramp" of the spec's
glossary and section 6 collaborator contract, which is not code of this
repository) — starting from value `v0` at the event's start time, the
parameter decays exponentially toward the event's target with the event's
time constant. -/
noncomputable def autoValue (v0 : ℝ) (e : AutoCall) (t : ℝ) : ℝ :=
  (e.target : ℝ) +
    (v0 - (e.target : ℝ)) * Real.exp (-((t - (e.startTime : ℝ)) / (e.timeConstant : ℝ)))

/-- The rendered sample at time `t` in the toggle scenario of claim C9: a
constant source of value 1 feeds the input stage; the bypass path multiplies
it by the bypass gain's automated value (initial value 0, then the ramp
scheduled by the toggle); the processing path multiplies it by the
sub-graph-input gain's automated value (initial value 1, then its ramp) and
by the caller's 0.5 sub-graph gain; the output stage sums both at unity
gain. -/
noncomputable def renderedAfterToggle (t0 : ℚ) (t : ℝ) : ℝ :=
  1 * autoValue 0 ((toggleAutos t0).getD 0 default) t * 1 +
    1 * autoValue 1 ((toggleAutos t0).getD 1 default) t * (1 / 2) * 1

/-- The complementary-target invariant of claim C1 for an instance `st` in
graph `w`: the bypass gain's settled value is 1 when the logical active flag
(truthiness of `#active`) is set and 0 otherwise, the sub-graph-input gain's
settled value is the complement, and the two sum to 1. -/
def complementaryTargets (st : BypassState) (w : World) : Prop :=
  settledGain w st.bypassId = (if truthy st.active then 1 else 0) ∧
  settledGain w st.subId = (if truthy st.active then 0 else 1) ∧
  settledGain w st.bypassId + settledGain w st.subId = 1

/-- Appending two automation calls of which the first satisfies the filter
and the second does not makes the first the last filtered event. -/
theorem getLast_filter_append_fst {α : Type} (p : α → Bool) (l : List α)
    (e1 e2 : α) (h1 : p e1 = true) (h2 : p e2 = false) :
    ((l ++ [e1, e2]).filter p).getLast? = some e1 := by
  rw [List.filter_append]
  have hf : [e1, e2].filter p = [e1] := by simp [List.filter, h1, h2]
  rw [hf, List.getLast?_append_cons]
  rfl

/-- Appending two automation calls of which only the second satisfies the
filter makes the second the last filtered event. -/
theorem getLast_filter_append_snd {α : Type} (p : α → Bool) (l : List α)
    (e1 e2 : α) (h1 : p e1 = false) (h2 : p e2 = true) :
    ((l ++ [e1, e2]).filter p).getLast? = some e2 := by
  rw [List.filter_append]
  have hf : [e1, e2].filter p = [e2] := by simp [List.filter, h1, h2]
  rw [hf, List.getLast?_append_cons]
  rfl

/-- Appending two automation calls neither of which satisfies the filter
leaves the filtered list unchanged. -/
theorem filter_append_none {α : Type} (p : α → Bool) (l : List α)
    (e1 e2 : α) (h1 : p e1 = false) (h2 : p e2 = false) :
    (l ++ [e1, e2]).filter p = l.filter p := by
  rw [List.filter_append]
  have hf : [e1, e2].filter p = [] := by simp [List.filter, h1, h2]
  rw [hf, List.append_nil]

/-- C2: every execution of the `active` setter schedules exactly two
`setTargetAtTime` ramps, appended to the host's automation record in source
order — first on the bypass gain toward `1` if `v` is truthy else `0`, then
on the sub-graph-input gain toward the complementary value — both with the
context's `currentTime` (read once) as start time and time constant 0.01. -/
theorem setActive_schedules_two_complementary_ramps
    (st : BypassState) (w : World) (v : JSVal) :
    (setActive st w v).2.autos = w.autos ++
      [⟨st.bypassId, if truthy v then 1 else 0, w.currentTime, 1 / 100⟩,
       ⟨st.subId, if truthy v then 0 else 1, w.currentTime, 1 / 100⟩] := by
  simp [setActive]

/-- C3 counterexample: assigning `active = 1` on a freshly constructed
instance stores the raw number `1`, so the synchronous read-back is not the
boolean `true` the claim promises (though it is truthiness-equivalent). -/
theorem setActive_raw_storage_counterexample :
    mkBypassNode (World.init 0) (.context 0) .undef = (freshW, .ok freshSt) ∧
    (setActive freshSt freshW (.num 1)).1.active ≠ JSVal.bool true ∧
    truthy (setActive freshSt freshW (.num 1)).1.active = true := by
  refine ⟨rfl, ?_, rfl⟩
  decide

/-- C3 (amended): the `active` setter stores `v` itself, uncoerced, as the
new logical state, never raises, and a synchronous read of `active` returns
exactly `v`; the truthiness coercion of `v` is applied only when computing
the two scheduled ramp targets. -/
theorem setActive_stores_value_uncoerced (st : BypassState) (w : World) (v : JSVal) :
    (setActive st w v).1.active = v ∧
    (setActive st w v).2.autos.map AutoCall.target = w.autos.map AutoCall.target ++
      [if truthy v then 1 else 0, if truthy v then 0 else 1] := by
  constructor
  · rfl
  · simp [setActive]

/-- C5: constructing a `BypassNode` whose first argument is not a
`BaseAudioContext` instance fails synchronously with the argument-1
`InvalidArgument` error, for every such value. -/
theorem construct_rejects_invalid_context (ctx : JSVal) (t : ℚ)
    (h : isContext ctx = false) :
    (mkBypassNode (World.init t) ctx .undef).2 =
      .error ConstructError.invalidContext := by
  cases ctx <;> first
    | rfl
    | simp [isContext] at h

/-- C5 witness. -/
theorem construct_rejects_invalid_context_witness :
    isContext JSVal.null = false ∧
    (mkBypassNode (World.init 0) JSVal.null JSVal.undef).2 =
      .error ConstructError.invalidContext :=
  ⟨rfl, construct_rejects_invalid_context JSVal.null 0 rfl⟩

/-- C10: `connect` delegates to the output gain's connect primitive with the
same arguments and returns its result unchanged, and `disconnect` delegates
to the output gain's disconnect primitive, propagating any error unchanged
and adding no validation of its own. -/
theorem connect_disconnect_delegate (st : BypassState)
    (prim prim2 : Nat → List JSVal → Except HostError JSVal)
    (args args2 : List JSVal) :
    st.connectVia prim args = prim st.outId args ∧
    (∀ e, prim2 st.outId args2 = .error e → st.disconnectVia prim2 args2 = .error e) ∧
    (∀ x, prim2 st.outId args2 = .ok x → st.disconnectVia prim2 args2 = .ok .undef) := by
  refine ⟨rfl, ?_, ?_⟩ <;> intro a h <;>
    simp [BypassState.disconnectVia, h, Except.map]

/-- C10 witness. -/
theorem connect_disconnect_delegate_witness :
    BypassState.connectVia freshSt (fun _ _ => .ok (.num 7)) [] = .ok (.num 7) ∧
    BypassState.disconnectVia freshSt (fun _ _ => .error (.err "boom")) [] =
      .error (.err "boom") :=
  ⟨(connect_disconnect_delegate freshSt (fun _ _ => .ok (.num 7))
      (fun _ _ => .error (.err "boom")) [] []).1,
   (connect_disconnect_delegate freshSt (fun _ _ => .ok (.num 7))
      (fun _ _ => .error (.err "boom")) [] []).2.1 (.err "boom") rfl⟩

/-- Inversion of a successful construction: the four gain stages receive the
four consecutive fresh ids, the three internal connections are appended in
order, no automation is scheduled, the four created nodes carry the initial
gains dictated by the coerced `active` option, and the stored `#active` is a
boolean. -/
theorem mk_ok_inv (w0 : World) (ctx arg2 : JSVal) (w : World) (st : BypassState)
    (h : mkBypassNode w0 ctx arg2 = (w, .ok st)) :
    st.selfId = w0.nextId ∧ st.bypassId = w0.nextId + 1 ∧
    st.subId = w0.nextId + 2 ∧ st.outId = w0.nextId + 3 ∧
    w.edges = w0.edges ++
      [(st.selfId, st.bypassId), (st.selfId, st.subId), (st.bypassId, st.outId)] ∧
    w.autos = w0.autos ∧
    w.nodes = w0.nodes ++
      [⟨st.selfId, contextIdOf ctx, 1⟩,
       ⟨st.bypassId, contextIdOf ctx, if truthy st.active then 1 else 0⟩,
       ⟨st.subId, contextIdOf ctx, if truthy st.active then 0 else 1⟩,
       ⟨st.outId, contextIdOf ctx, 1⟩] ∧
    (∃ b : Bool, st.active = .bool b) := by
  unfold mkBypassNode at h
  rcases hd : destructureActive arg2 with e | av
  · rw [hd] at h
    simp at h
  · rw [hd] at h
    dsimp only at h
    by_cases h1 : isContext ctx = false
    · simp [h1] at h
    · rw [if_neg h1] at h
      by_cases h2 : arg2 ≠ JSVal.undef ∧ isPlainObject arg2 = false
      · simp [if_pos h2] at h
      · rw [if_neg h2] at h
        simp only [Prod.mk.injEq, Except.ok.injEq] at h
        obtain ⟨hw, hst⟩ := h
        subst hw
        subst hst
        simp [World.newGain, World.addEdge, truthy]

/-- Inversion of a failed construction: no internal connection was made, no
automation was scheduled, and at most the base input-stage node (created by
`super(context)` before validation) was added. -/
theorem mk_err_inv (w0 : World) (ctx arg2 : JSVal) (w : World) (e : ConstructError)
    (h : mkBypassNode w0 ctx arg2 = (w, .error e)) :
    w.edges = w0.edges ∧ w.autos = w0.autos ∧
    w.nodes.length ≤ w0.nodes.length + 1 := by
  unfold mkBypassNode at h
  rcases hd : destructureActive arg2 with e2 | av
  · rw [hd] at h
    dsimp only at h
    obtain ⟨hw, _⟩ := Prod.mk.injEq .. ▸ h
    exact ⟨congrArg World.edges hw.symm ▸ rfl, congrArg World.autos hw.symm ▸ rfl,
      by rw [← hw]; omega⟩
  · rw [hd] at h
    dsimp only at h
    by_cases h1 : isContext ctx = false
    · rw [if_pos h1] at h
      simp only [Prod.mk.injEq] at h
      obtain ⟨hw, -⟩ := h
      subst hw
      refine ⟨rfl, rfl, ?_⟩
      simp [World.newGain]
    · rw [if_neg h1] at h
      by_cases h2 : arg2 ≠ JSVal.undef ∧ isPlainObject arg2 = false
      · rw [if_pos h2] at h
        simp only [Prod.mk.injEq] at h
        obtain ⟨hw, -⟩ := h
        subst hw
        refine ⟨rfl, rfl, ?_⟩
        simp [World.newGain]
      · rw [if_neg h2] at h
        simp at h

/-- With a valid context and a valid (or omitted) options argument,
construction succeeds. -/
theorem mk_succeeds (w0 : World) (ctx arg2 : JSVal)
    (hc : isContext ctx = true)
    (ho : arg2 = JSVal.undef ∨ isPlainObject arg2 = true) :
    ∃ w st, mkBypassNode w0 ctx arg2 = (w, .ok st) := by
  have hd : ∃ av, destructureActive arg2 = .ok av := by
    rcases ho with ho | ho
    · subst ho
      exact ⟨_, rfl⟩
    · cases arg2 <;> simp [isPlainObject] at ho <;> try exact ⟨_, rfl⟩
      rename_i a
      cases a <;> exact ⟨_, rfl⟩
  obtain ⟨av, hav⟩ := hd
  have h2 : ¬(arg2 ≠ JSVal.undef ∧ isPlainObject arg2 = false) := by
    rcases ho with ho | ho
    · exact fun hx => hx.1 ho
    · exact fun hx => by rw [ho] at hx; exact Bool.true_eq_false.mp hx.2
  unfold mkBypassNode
  rw [hav]
  dsimp only
  rw [if_neg (by simp [hc]), if_neg h2]
  exact ⟨_, _, rfl⟩

/-- C4: successful construction wires exactly the input stage into the
bypass gain and into the sub-graph-input gain in parallel and the bypass
gain into the output gain; the sub-graph-input gain's output is connected
nowhere internally, in particular not to the output gain; and the
`subGraphInput` and `subGraphOutput` accessors return the sub-graph-input
gain stage and the output gain stage respectively. -/
theorem construct_topology (ctx arg2 : JSVal) (t : ℚ)
    (hc : isContext ctx = true)
    (ho : arg2 = JSVal.undef ∨ isPlainObject arg2 = true) :
    ∃ w st, mkBypassNode (World.init t) ctx arg2 = (w, .ok st) ∧
      w.edges = [(st.selfId, st.bypassId), (st.selfId, st.subId),
                 (st.bypassId, st.outId)] ∧
      st.subGraphInput = st.subId ∧ st.subGraphOutput = st.outId ∧
      (st.subId, st.outId) ∉ w.edges ∧ (∀ d, (st.subId, d) ∉ w.edges) := by
  obtain ⟨w, st, hmk⟩ := mk_succeeds (World.init t) ctx arg2 hc ho
  obtain ⟨hself, hbyp, hsub, hout, hedges, -, -, -⟩ :=
    mk_ok_inv (World.init t) ctx arg2 w st hmk
  have hedges2 : w.edges = [(st.selfId, st.bypassId), (st.selfId, st.subId),
      (st.bypassId, st.outId)] := by
    rw [hedges]
    rfl
  refine ⟨w, st, hmk, hedges2, rfl, rfl, ?_, ?_⟩
  · rw [hedges2, hself, hbyp, hsub, hout]
    simp [World.init]
  · intro d
    rw [hedges2, hself, hbyp, hsub, hout]
    simp [World.init]

/-- C4 witness. -/
theorem construct_topology_witness :
    isContext (JSVal.context 0) = true ∧
    (JSVal.undef = JSVal.undef ∨ isPlainObject JSVal.undef = true) ∧
    (∃ w st, mkBypassNode (World.init 0) (JSVal.context 0) JSVal.undef =
        (w, .ok st) ∧
      w.edges = [(st.selfId, st.bypassId), (st.selfId, st.subId),
                 (st.bypassId, st.outId)] ∧
      st.subGraphInput = st.subId ∧ st.subGraphOutput = st.outId ∧
      (st.subId, st.outId) ∉ w.edges ∧ (∀ d, (st.subId, d) ∉ w.edges)) :=
  ⟨rfl, Or.inl rfl,
   construct_topology (JSVal.context 0) JSVal.undef 0 rfl (Or.inl rfl)⟩

/-- C7: construction is atomic — on success, all three internal gain stages
exist (the created nodes are exactly the input stage and the three internal
stages) and all three internal connections are in place; on any failure, no
internal connection and no automation was ever issued and at most the base
input-stage node from `super(context)` exists. -/
theorem construct_atomic (ctx arg2 : JSVal) (t : ℚ) :
    (∀ w st, mkBypassNode (World.init t) ctx arg2 = (w, .ok st) →
        w.edges = [(st.selfId, st.bypassId), (st.selfId, st.subId),
                   (st.bypassId, st.outId)] ∧
        w.nodes.map GNode.id = [st.selfId, st.bypassId, st.subId, st.outId]) ∧
    (∀ w e, mkBypassNode (World.init t) ctx arg2 = (w, .error e) →
        w.edges = [] ∧ w.autos = [] ∧ w.nodes.length ≤ 1) := by
  constructor
  · intro w st hmk
    obtain ⟨hself, hbyp, hsub, hout, hedges, -, hnodes, -⟩ :=
      mk_ok_inv (World.init t) ctx arg2 w st hmk
    constructor
    · rw [hedges]
      rfl
    · rw [hnodes]
      rfl
  · intro w e hmk
    obtain ⟨hedges, hautos, hlen⟩ := mk_err_inv (World.init t) ctx arg2 w e hmk
    exact ⟨hedges, hautos, hlen⟩

/-- C7 witness. -/
theorem construct_atomic_witness :
    (mkBypassNode (World.init 0) (JSVal.context 0) JSVal.undef).1.edges =
      [(freshSt.selfId, freshSt.bypassId), (freshSt.selfId, freshSt.subId),
       (freshSt.bypassId, freshSt.outId)] ∧
    (mkBypassNode (World.init 0) JSVal.null JSVal.undef).1.edges = [] :=
  ⟨((construct_atomic (JSVal.context 0) JSVal.undef 0).1 freshW freshSt rfl).1,
   (((construct_atomic JSVal.null JSVal.undef 0).2
      (mkBypassNode (World.init 0) JSVal.null JSVal.undef).1
      ConstructError.invalidContext rfl)).1⟩

/-- The exact automation record produced by one execution of the `active`
setter (shared helper). -/
theorem setActive_autos_eq (st : BypassState) (w : World) (v : JSVal) :
    (setActive st w v).2.autos = w.autos ++
      [⟨st.bypassId, if truthy v then 1 else 0, w.currentTime, 1 / 100⟩,
       ⟨st.subId, if truthy v then 0 else 1, w.currentTime, 1 / 100⟩] := by
  simp [setActive]

/-- `settledGain` rewrites to the last matching automation target. -/
theorem settledGain_last (w : World) (nid : Nat) (e : AutoCall)
    (h : (w.autos.filter (fun x => x.node == nid)).getLast? = some e) :
    settledGain w nid = e.target := by
  unfold settledGain
  rw [h]

/-- `settledGain` only depends on the matching automation events and the
node list. -/
theorem settledGain_congr (w w2 : World) (nid : Nat)
    (hA : w2.autos.filter (fun x => x.node == nid) =
      w.autos.filter (fun x => x.node == nid))
    (hN : w2.nodes = w.nodes) :
    settledGain w2 nid = settledGain w nid := by
  unfold settledGain
  rw [hA, hN]

/-- After any execution of the `active` setter on an instance whose bypass
and sub-graph-input stages are distinct nodes, the two settled gain targets
are complementary (shared helper for C1). -/
theorem setActive_complementary (st : BypassState) (w : World) (v : JSVal)
    (hids : st.bypassId ≠ st.subId) :
    complementaryTargets (setActive st w v).1 (setActive st w v).2 := by
  have hb : settledGain (setActive st w v).2 st.bypassId =
      (if truthy v then 1 else 0) :=
    settledGain_last (setActive st w v).2 st.bypassId
      ⟨st.bypassId, if truthy v then 1 else 0, w.currentTime, 1 / 100⟩ (by
        rw [setActive_autos_eq]
        exact getLast_filter_append_fst _ w.autos _ _ (by simp)
          (by simp [Ne.symm hids]))
  have hs : settledGain (setActive st w v).2 st.subId =
      (if truthy v then 0 else 1) :=
    settledGain_last (setActive st w v).2 st.subId
      ⟨st.subId, if truthy v then 0 else 1, w.currentTime, 1 / 100⟩ (by
        rw [setActive_autos_eq]
        exact getLast_filter_append_snd _ w.autos _ _ (by simp [hids]) (by simp))
  have hact : (setActive st w v).1.active = v := rfl
  have hbid : (setActive st w v).1.bypassId = st.bypassId := rfl
  have hsid : (setActive st w v).1.subId = st.subId := rfl
  refine ⟨?_, ?_, ?_⟩
  · rw [hbid, hact, hb]
  · rw [hsid, hact, hs]
  · rw [hbid, hsid, hb, hs]
    cases truthy v <;> norm_num

/-- C1: after construction the bypass gain's target is 1 when the logical
active flag is set and 0 otherwise and the sub-graph-input gain's target is
the complement, the two summing to 1; and every settled `active = v`
assignment re-establishes the same complementary-target invariant, so the
two gains are never both driven toward 1 nor both toward 0. -/
theorem bypass_gains_complementary (ctx arg2 : JSVal) (t : ℚ)
    (hc : isContext ctx = true)
    (ho : arg2 = JSVal.undef ∨ isPlainObject arg2 = true)
    (st2 : BypassState) (w2 : World) (v : JSVal)
    (hids : st2.bypassId ≠ st2.subId) :
    (∃ w st, mkBypassNode (World.init t) ctx arg2 = (w, .ok st) ∧
      complementaryTargets st w) ∧
    complementaryTargets (setActive st2 w2 v).1 (setActive st2 w2 v).2 := by
  constructor
  · obtain ⟨w, st, hmk⟩ := mk_succeeds (World.init t) ctx arg2 hc ho
    obtain ⟨hself, hbyp, hsub, hout, hedges, hautos, hnodes, b, hb⟩ :=
      mk_ok_inv (World.init t) ctx arg2 w st hmk
    refine ⟨w, st, hmk, ?_, ?_, ?_⟩
    · unfold settledGain
      rw [hautos, hnodes, hself, hbyp, hsub, hout]
      simp [World.init]
    · unfold settledGain
      rw [hautos, hnodes, hself, hbyp, hsub, hout]
      simp [World.init]
    · unfold settledGain
      rw [hautos, hnodes, hself, hbyp, hsub, hout]
      simp [World.init]
      cases truthy st.active <;> norm_num
  · exact setActive_complementary st2 w2 v hids

/-- C1 witness. -/
theorem bypass_gains_complementary_witness :
    isContext (JSVal.context 0) = true ∧
    (JSVal.undef = JSVal.undef ∨ isPlainObject JSVal.undef = true) ∧
    freshSt.bypassId ≠ freshSt.subId ∧
    ((∃ w st, mkBypassNode (World.init 0) (JSVal.context 0) JSVal.undef =
        (w, .ok st) ∧ complementaryTargets st w) ∧
     complementaryTargets (setActive freshSt freshW (JSVal.bool true)).1
       (setActive freshSt freshW (JSVal.bool true)).2) :=
  ⟨rfl, Or.inl rfl, by decide,
   bypass_gains_complementary (JSVal.context 0) JSVal.undef 0 rfl (Or.inl rfl)
     freshSt freshW (JSVal.bool true) (by decide)⟩

/-- C8: the `active` setter creates and destroys nothing — the node list,
the connection topology and the four stage handles are unchanged, every
automation event it adds targets only the bypass or the sub-graph-input
gain, and the output gain's settled gain value (unity from construction) is
untouched. -/
theorem setActive_only_mutates_params (st : BypassState) (w : World) (v : JSVal)
    (h1 : st.outId ≠ st.bypassId) (h2 : st.outId ≠ st.subId) :
    (setActive st w v).2.nodes = w.nodes ∧
    (setActive st w v).2.edges = w.edges ∧
    (setActive st w v).1.selfId = st.selfId ∧
    (setActive st w v).1.bypassId = st.bypassId ∧
    (setActive st w v).1.subId = st.subId ∧
    (setActive st w v).1.outId = st.outId ∧
    settledGain (setActive st w v).2 st.outId = settledGain w st.outId ∧
    (∀ e, e ∈ (setActive st w v).2.autos →
      e ∈ w.autos ∨ e.node = st.bypassId ∨ e.node = st.subId) := by
  refine ⟨rfl, rfl, rfl, rfl, rfl, rfl, ?_, ?_⟩
  · apply settledGain_congr
    · rw [setActive_autos_eq]
      exact filter_append_none _ w.autos _ _
        (by simp [Ne.symm h1]) (by simp [Ne.symm h2])
    · rfl
  · intro e he
    rw [setActive_autos_eq] at he
    rcases List.mem_append.mp he with h | h
    · exact Or.inl h
    · rcases List.mem_cons.mp h with h | h
      · subst h
        exact Or.inr (Or.inl rfl)
      · rcases List.mem_cons.mp h with h | h
        · subst h
          exact Or.inr (Or.inr rfl)
        · cases h

/-- C8 witness. -/
theorem setActive_only_mutates_params_witness :
    freshSt.outId ≠ freshSt.bypassId ∧ freshSt.outId ≠ freshSt.subId ∧
    ((setActive freshSt freshW (JSVal.bool true)).2.edges = freshW.edges ∧
     settledGain (setActive freshSt freshW (JSVal.bool true)).2 freshSt.outId =
       settledGain freshW freshSt.outId) :=
  ⟨by decide, by decide,
   ⟨(setActive_only_mutates_params freshSt freshW (JSVal.bool true)
       (by decide) (by decide)).2.1,
    (setActive_only_mutates_params freshSt freshW (JSVal.bool true)
       (by decide) (by decide)).2.2.2.2.2.2.1⟩⟩

theorem toggleAutos_eq (t0 : ℚ) :
    toggleAutos t0 = [⟨1, 1, t0, 1 / 100⟩, ⟨2, 0, t0, 1 / 100⟩] := rfl

/-- The rendered toggle-scenario sample in closed form: the two scheduled
ramps combine with the 0.5 sub-graph into a single exponential approach from
0.5 toward 1. -/
theorem renderedAfterToggle_eq (t0 : ℚ) (t : ℝ) :
    renderedAfterToggle t0 t = 1 - Real.exp (((t0 : ℝ) - t) * 100) / 2 := by
  unfold renderedAfterToggle autoValue
  rw [toggleAutos_eq]
  norm_num [List.getD]
  rw [show -((t - (t0 : ℝ)) / (1 / 100)) = ((t0 : ℝ) - t) * 100 by ring]
  ring

/-- C9: in the offline toggle scenario (constant unit source, 0.5-gain
sub-graph spliced between the ports, `active` flipped from false to true at
clock time `t0`), every rendered sample at or after the toggle is monotone
non-decreasing in time, never exceeds 1, and never drops below the pre-toggle
value 0.5. -/
theorem toggle_render_monotone_bounded (t0 : ℚ) (t1 t2 : ℝ)
    (h0 : (t0 : ℝ) ≤ t1) (h12 : t1 ≤ t2) :
    renderedAfterToggle t0 t1 ≤ renderedAfterToggle t0 t2 ∧
    renderedAfterToggle t0 t2 ≤ 1 ∧
    1 / 2 ≤ renderedAfterToggle t0 t1 := by
  rw [renderedAfterToggle_eq, renderedAfterToggle_eq]
  refine ⟨?_, ?_, ?_⟩
  · have hE : Real.exp (((t0 : ℝ) - t2) * 100) ≤ Real.exp (((t0 : ℝ) - t1) * 100) :=
      Real.exp_le_exp.mpr (by linarith)
    linarith
  · have hP := Real.exp_pos (((t0 : ℝ) - t2) * 100)
    linarith
  · have hE : Real.exp (((t0 : ℝ) - t1) * 100) ≤ 1 :=
      Real.exp_le_one_iff.mpr (by linarith)
    linarith

/-- C9 witness. -/
theorem toggle_render_monotone_bounded_witness :
    ((0 : ℚ) : ℝ) ≤ (0 : ℝ) ∧ (0 : ℝ) ≤ (0 : ℝ) ∧
    (renderedAfterToggle 0 0 ≤ renderedAfterToggle 0 0 ∧
     renderedAfterToggle 0 0 ≤ 1 ∧
     1 / 2 ≤ renderedAfterToggle 0 0) :=
  ⟨by norm_num, le_refl 0,
   toggle_render_monotone_bounded 0 0 0 (by norm_num) (le_refl 0)⟩

/-- C6: with a valid context, supplying a second argument that is not a
plain key-value record (`null`, string, number, `NaN`, boolean, or a host
object) makes construction fail synchronously (for `null` the failure comes
from destructuring the options parameter, for the rest from the explicit
argument-2 check — the spec's taxonomy calls both `InvalidArgument`), while
omitting the second argument (passing `undefined`) succeeds. -/
theorem construct_rejects_non_record_options (ctx arg2 : JSVal) (t : ℚ)
    (hc : isContext ctx = true) (h1 : arg2 ≠ JSVal.undef)
    (h2 : isPlainObject arg2 = false) :
    (∃ e, (mkBypassNode (World.init t) ctx arg2).2 = .error e) ∧
    (∃ st, (mkBypassNode (World.init t) ctx JSVal.undef).2 = .ok st) := by
  cases ctx <;> simp [isContext] at hc
  constructor
  · cases arg2 <;> first
      | exact absurd rfl h1
      | exact ⟨ConstructError.destructureNull, rfl⟩
      | exact ⟨ConstructError.invalidOptions, rfl⟩
      | simp [isPlainObject] at h2
  · exact ⟨_, rfl⟩

/-- C6 witness. -/
theorem construct_rejects_non_record_options_witness :
    isContext (JSVal.context 0) = true ∧ JSVal.null ≠ JSVal.undef ∧
    isPlainObject JSVal.null = false ∧
    ((∃ e, (mkBypassNode (World.init 0) (JSVal.context 0) JSVal.null).2 = .error e) ∧
     (∃ st, (mkBypassNode (World.init 0) (JSVal.context 0) JSVal.undef).2 = .ok st)) :=
  ⟨rfl, by decide, rfl,
   construct_rejects_non_record_options (JSVal.context 0) JSVal.null 0 rfl (by decide) rfl⟩
